import Mathlib

/-!
The program realtime_filter: a streaming biquad low-pass filter with a block
cache.  This file is a shallow embedding of `Main.cpp`.

* C++ `double` values are elements of an ordered field `K` with a floor function
  (exact arithmetic, rounding is not modelled).  The definitions are executable at
  `K = ℚ`; at `K = ℝ` the library functions `Sin`, `Cos` and the literal `2.0_pi`
  are the real sine, cosine and `2 * π`.
* `int32`, `int64` and `size_t` values are integers and natural numbers.  The
  indices `Main` computes are bounded by the length of a wave held in memory
  plus `BufLen`, so no index arithmetic wraps.  A `double` that does not fit
  `int32` converts to `INT_MIN`, as on x86-64.
* By-reference arguments are passed explicitly: a function returns the objects
  it was given references to.
* Calls into the audio device (`Sound::fill`, `play`, `pause`, `setPosSample`),
  the drawing code and the FFT display are not part of the development.
-/

namespace RealtimeFilter

/-! ## Library functions -/

/-- Siv3D `Clamp(x, min, max)`. -/
def Clamp {α : Type} [LinearOrder α] (x lo hi : α) : α :=
  if x < lo then lo else if hi < x then hi else x

/-- The functions `Sin`, `Cos` and the literal `2.0_pi` of the Siv3D library. -/
structure MathFns (K : Type) where
  Sin : K → K
  Cos : K → K
  twoPi : K

/-- Real sine and cosine. -/
noncomputable def realFns : MathFns ℝ where
  Sin := Real.sin
  Cos := Real.cos
  twoPi := 2 * Real.pi

section Model

variable {K : Type} [LinearOrderedField K] [FloorRing K]

/-- The value of `x` with its fractional part discarded (truncation toward zero). -/
def truncate (x : K) : Int :=
  if 0 ≤ x then ⌊x⌋ else ⌈x⌉

/-- The truncated value of `x` can be represented in `int32`. -/
def fitsInt32 (x : K) : Prop :=
  -2147483648 ≤ truncate x ∧ truncate x ≤ 2147483647

/-- Conversion `double → int32`: the fractional part is discarded.  When the
truncated value does not fit `int32` the C++ conversion is undefined; the
instruction compilers emit for it on x86-64 (`cvttsd2si`) then yields
`INT_MIN = -2147483648`, and so does the model. -/
def toInt32 (x : K) : Int :=
  if -2147483648 ≤ truncate x ∧ truncate x ≤ 2147483647 then truncate x else -2147483648

/-! ## `struct Filter` -/

/-- The members of `struct Filter`. -/
structure Filter (K : Type) where
  k0 : K
  k1 : K
  k2 : K
  k3 : K
  k4 : K
  s : K
  q : K
  f : K

/-- Local `omg` of `Filter::calc`. -/
def Filter.omg (m : MathFns K) (flt : Filter K) : K :=
  m.twoPi * flt.f / flt.s

/-- Local `alpha` of `Filter::calc`. -/
def Filter.alpha (m : MathFns K) (flt : Filter K) : K :=
  m.Sin (flt.omg m) / (2 * flt.q)

/-- Local `a0` of `Filter::calc`, the divisor of the five coefficients. -/
def Filter.a0 (m : MathFns K) (flt : Filter K) : K :=
  1 + flt.alpha m

/-- The member function `Filter::calc`. -/
def Filter.calc (m : MathFns K) (flt : Filter K) : Filter K :=
  let omg := flt.omg m
  let alpha := flt.alpha m
  let b0 := (1 - m.Cos omg) / 2
  let b1 := 1 - m.Cos omg
  let b2 := (1 - m.Cos omg) / 2
  let a0 := flt.a0 m
  let a1 := -2 * m.Cos omg
  let a2 := 1 - alpha
  { flt with
    k0 := b0 / a0
    k1 := b1 / a0
    k2 := b2 / a0
    k3 := -(a1 / a0)
    k4 := -(a2 / a0) }

/-- The constructor `Filter(samplingRate, f, q)`. -/
def Filter.new (m : MathFns K) (samplingRate : Int) (f q : K) : Filter K :=
  Filter.calc m { k0 := 0, k1 := 0, k2 := 0, k3 := 0, k4 := 0, s := samplingRate, q := q, f := f }

/-! ## Waves and the filter memory -/

/-- The members of `struct OutputBuffer`: the last two filtered samples of each channel. -/
structure OutputBuffer (K : Type) [Zero K] where
  yl1 : K := 0
  yl2 : K := 0
  yr1 : K := 0
  yr2 : K := 0

/-- Siv3D `WaveSample`: one stereo sample. -/
structure WaveSample where
  left : Int
  right : Int
deriving DecidableEq

/-- Siv3D `Wave`: a sampling rate and a sequence of stereo samples. -/
structure Wave where
  samplingRate : Nat
  samples : List WaveSample
deriving DecidableEq

/-- The member `wave.lengthSample`. -/
def Wave.lengthSample (w : Wave) : Nat :=
  w.samples.length

/-- Reading `wave[i]`. -/
def Wave.get (w : Wave) (i : Nat) : WaveSample :=
  w.samples.getD i ⟨0, 0⟩

/-- Writing `wave[i]`. -/
def Wave.set (w : Wave) (i : Nat) (v : WaveSample) : Wave :=
  { w with samples := w.samples.set i v }

/-- Siv3D `Sound`, of which the model keeps `lengthSample()`. -/
structure Sound where
  lengthSample : Nat
deriving DecidableEq

/-- The constructor `Sound(wave, SoundLoop::All)`. -/
def Sound.new (w : Wave) : Sound :=
  ⟨w.lengthSample⟩

/-! ## The filter -/

/-- The function `filteredSampleLeft`. -/
def filteredSampleLeft (wave : Wave) (pos : Nat) (filter : Filter K) (out : OutputBuffer K) : Int :=
  let w1 : Int := if pos > 0 then (wave.get (pos - 1)).left else 0
  let w2 : Int := if pos > 1 then (wave.get (pos - 2)).left else 0
  let y : Int := toInt32
    (filter.k0 * ((wave.get pos).left : K)
      + filter.k1 * (w1 : K)
      + filter.k2 * (w2 : K)
      + filter.k3 * out.yl1
      + filter.k4 * out.yl2)
  Clamp y (-32768) 32767

/-- The function `filteredSampleRight`. -/
def filteredSampleRight (wave : Wave) (pos : Nat) (filter : Filter K) (out : OutputBuffer K) : Int :=
  let w1 : Int := if pos > 0 then (wave.get (pos - 1)).right else 0
  let w2 : Int := if pos > 1 then (wave.get (pos - 2)).right else 0
  let y : Int := toInt32
    (filter.k0 * ((wave.get pos).right : K)
      + filter.k1 * (w1 : K)
      + filter.k2 * (w2 : K)
      + filter.k3 * out.yr1
      + filter.k4 * out.yr2)
  Clamp y (-32768) 32767

/-- The computation that `filteredSampleLeft` and `filteredSampleRight` share, on
the samples `source` of one channel and the memory `(y1, y2)` of that channel. -/
def filteredSample (filter : Filter K) (source : Nat → Int) (pos : Nat) (y1 y2 : K) : Int :=
  let w1 : Int := if pos > 0 then source (pos - 1) else 0
  let w2 : Int := if pos > 1 then source (pos - 2) else 0
  let y : Int := toInt32
    (filter.k0 * (source pos : K)
      + filter.k1 * (w1 : K)
      + filter.k2 * (w2 : K)
      + filter.k3 * y1
      + filter.k4 * y2)
  Clamp y (-32768) 32767

/-- The objects `applyFilter` holds references to: the output wave `wave`, the
original wave `waveOrig` (a `const` reference) and the filter memory `out`. -/
structure Store (K : Type) [Zero K] where
  wave : Wave
  waveOrig : Wave
  out : OutputBuffer K

/-- The body of the loop of `applyFilter` at index `i`. -/
def applyFilter.body (filter : Filter K) (i : Nat) (st : Store K) : Store K :=
  let yl := filteredSampleLeft st.waveOrig i filter st.out
  let yr := filteredSampleRight st.waveOrig i filter st.out
  { wave := st.wave.set i ⟨yl, yr⟩
    waveOrig := st.waveOrig
    out := { yl2 := st.out.yl1, yl1 := (yl : K), yr2 := st.out.yr1, yr1 := (yr : K) } }

/-- The loop `for (i = start; i < bound; i++)` of `applyFilter`, run for its
`n = bound - i` remaining iterations. -/
def applyFilter.loop (filter : Filter K) : Nat → Nat → Store K → Store K
  | 0, _, st => st
  | n + 1, i, st => applyFilter.loop filter n (i + 1) (applyFilter.body filter i st)

/-- The function `applyFilter`: the loop runs over
`start ≤ i < Min(start + length, sound.lengthSample())`.  The model covers
`start + length < 2^63`, where neither the `size_t` sum nor its conversion to
`int64` wraps; `Main` calls it with `start < len` and `length = BufLen`. -/
def applyFilter (sound : Sound) (wave waveOrig : Wave) (start length : Nat)
    (filter : Filter K) (out : OutputBuffer K) : Store K :=
  applyFilter.loop filter (min (start + length) sound.lengthSample - start) start
    ⟨wave, waveOrig, out⟩

end Model

/-! ## `struct FilteredBlock` -/

/-- The member of `struct FilteredBlock`: one flag per block. -/
structure FilteredBlock where
  block : List Bool
deriving DecidableEq

/-- The constructor `FilteredBlock(lengthSample, bufferLength)`. -/
def FilteredBlock.new (lengthSample bufferLength : Nat) : FilteredBlock :=
  ⟨List.replicate
    (lengthSample / bufferLength + (if lengthSample % bufferLength ≠ 0 then 1 else 0)) false⟩

/-- Reading `block[i]`. -/
def FilteredBlock.get (b : FilteredBlock) (i : Nat) : Bool :=
  b.block.getD i false

/-- Writing `block[i] = v`. -/
def FilteredBlock.set (b : FilteredBlock) (i : Nat) (v : Bool) : FilteredBlock :=
  ⟨b.block.set i v⟩

/-- The member function `FilteredBlock::reset`. -/
def FilteredBlock.reset (b : FilteredBlock) : FilteredBlock :=
  ⟨b.block.map fun _ => false⟩

/-! ## `Main` -/

/-- The constant `BufLen` of `Main`. -/
def BufLen : Nat := 5000

/-- What one pass of the loop of `Main` reads from the devices: the stream
position `sound.streamPosSample()`, the `pressed` state of the four adjustment
keys, `(KeyLeft | KeyRight | KeyDown | KeyUp).released`, for a click on the
position slider `Mouse::Pos().x` and `Window::Width()`, and for a dropped file
the wave decoded from it. -/
structure Input where
  pos : Nat
  keyLeft : Bool
  keyRight : Bool
  keyDown : Bool
  keyUp : Bool
  released : Bool
  sliderClick : Option (Nat × Nat)
  dropped : Option Wave

/-- The value of `(KeyLeft | KeyRight | KeyDown | KeyUp).pressed`. -/
def Input.anyPressed (inp : Input) : Bool :=
  inp.keyLeft || inp.keyRight || inp.keyDown || inp.keyUp

section MainModel

variable {K : Type} [LinearOrderedField K] [FloorRing K]

/-- The variables of `Main` that the filter engine works on. -/
structure Engine (K : Type) [Zero K] where
  wave : Wave
  waveOrig : Wave
  sound : Sound
  len : Nat
  filter : Filter K
  out : OutputBuffer K
  block : FilteredBlock

/-- The part of `Main` before the loop: load the wave, filter block 0. -/
def Main.init (m : MathFns K) (BufLen : Nat) (file : Wave) : Engine K :=
  let wave := file
  let waveOrig := wave
  let sound := Sound.new wave
  let len := sound.lengthSample
  let filter : Filter K := Filter.new m wave.samplingRate 1500 1
  let out : OutputBuffer K := {}
  let block := FilteredBlock.new wave.lengthSample BufLen
  let r := applyFilter sound wave waveOrig 0 BufLen filter out
  { wave := r.wave, waveOrig := r.waveOrig, sound := sound, len := len, filter := filter,
    out := r.out, block := block.set 0 true }

/-- The steps "Change filter freq." and "Change filter Q": the keys move `f` by 8 and `q`
by 0.02, and both are clamped. -/
def Main.adjust (inp : Input) (filter : Filter K) : Filter K :=
  let f1 := if inp.keyLeft then filter.f - 8 else filter.f
  let f2 := if inp.keyRight then f1 + 8 else f1
  let f3 := Clamp f2 40 5000
  let q1 := if inp.keyDown then filter.q - 2 / 100 else filter.q
  let q2 := if inp.keyUp then q1 + 2 / 100 else q1
  let q3 := Clamp q2 (10 / 100) 10
  { filter with f := f3, q := q3 }

/-- The index `idx_block` of the block one buffer length ahead of `pos`. -/
def Main.idxBlock (BufLen pos len : Nat) : Nat :=
  ((pos + BufLen) % len) / BufLen

/-- The step "Apply filter to next block". -/
def Main.lookahead (m : MathFns K) (BufLen : Nat) (inp : Input) (e : Engine K) : Engine K :=
  let idx_block := Main.idxBlock BufLen inp.pos e.len
  let filter := if inp.anyPressed then e.filter.calc m else e.filter
  let block := if inp.released then (e.block.reset).set idx_block true else e.block
  if !block.get idx_block then
    let start := idx_block * BufLen
    let r := applyFilter e.sound e.wave e.waveOrig start BufLen filter e.out
    { e with wave := r.wave, waveOrig := r.waveOrig, out := r.out, filter := filter,
             block := block.set idx_block true }
  else
    { e with filter := filter, block := block }

/-- The step "Position change": a click on the slider at `mouseX` of `width`. -/
def Main.seek (m : MathFns K) (BufLen mouseX width : Nat) (e : Engine K) : Engine K :=
  let block := e.block.reset
  let filter := e.filter.calc m
  let newpos := e.len * mouseX / width
  let idx_block := newpos / BufLen
  let start := idx_block * BufLen
  let r := applyFilter e.sound e.wave e.waveOrig start BufLen filter e.out
  { e with wave := r.wave, waveOrig := r.waveOrig, out := r.out, filter := filter,
           block := block.set idx_block true }

/-- The step "Drag-Drop audio file": the wave `file` replaces the current one. -/
def Main.reload (m : MathFns K) (BufLen : Nat) (file : Wave) (e : Engine K) : Engine K :=
  let wave := file
  let waveOrig := wave
  let sound := Sound.new wave
  let len := sound.lengthSample
  let block := (FilteredBlock.new len BufLen).reset
  let filter := e.filter.calc m
  let r := applyFilter sound wave waveOrig 0 BufLen filter e.out
  { wave := r.wave, waveOrig := r.waveOrig, sound := sound, len := len, filter := filter,
    out := r.out, block := block.set 0 true }

/-- One pass of the loop of `Main`. -/
def Main.tick (m : MathFns K) (BufLen : Nat) (inp : Input) (e : Engine K) : Engine K :=
  let e1 := { e with filter := Main.adjust inp e.filter }
  let e2 := Main.lookahead m BufLen inp e1
  let e3 := match inp.sliderClick with
    | some (mouseX, width) => Main.seek m BufLen mouseX width e2
    | none => e2
  match inp.dropped with
  | some file => Main.reload m BufLen file e3
  | none => e3

end MainModel

/-! ## The filter in the words of the specification -/

section SpecModel

variable {K : Type} [LinearOrderedField K] [FloorRing K]

/-- The sum of one channel at index `i`, in the words of the specification:
`y = k0*source[i] + k1*w1 + k2*w2 + k3*prev1 + k4*prev2`, where a missing
`source[i-1]` or `source[i-2]` is 0. -/
def specSum (filter : Filter K) (source : Nat → Int) (i : Nat) (prev1 prev2 : K) : K :=
  let w1 : Int := if i ≥ 1 then source (i - 1) else 0
  let w2 : Int := if i ≥ 2 then source (i - 2) else 0
  filter.k0 * (source i : K) + filter.k1 * (w1 : K) + filter.k2 * (w2 : K)
    + filter.k3 * prev1 + filter.k4 * prev2

/-- The sample of one channel at index `i`, in the words of the specification:
the sum clamped to `[-32768, 32767]` and stored as an integer sample. -/
def specSample (filter : Filter K) (source : Nat → Int) (i : Nat) (prev1 prev2 : K) : Int :=
  toInt32 (Clamp (specSum filter source i prev1 prev2) (-32768) 32767)

/-- The registers `(prev1, prev2)` of one channel on entry to step `start + n`,
in the words of the specification: after a step `prev2` is the old `prev1` and
`prev1` is the sample just written. -/
def specRegs (filter : Filter K) (source : Nat → Int) (start : Nat) (entry : K × K) :
    Nat → K × K
  | 0 => entry
  | n + 1 =>
    let r := specRegs filter source start entry n
    ((specSample filter source (start + n) r.1 r.2 : K), r.1)

end SpecModel

/-! ## Example data -/

/-- A wave of three samples at 16 kHz. -/
def exWave : Wave := ⟨16000, [⟨302, 302⟩, ⟨400, 400⟩, ⟨100, 100⟩]⟩

/-- The samples that filtering `exWave` with `exFilter` from a zeroed memory gives. -/
def exFiltered : Wave := ⟨16000, [⟨100, 100⟩, ⟨334, 334⟩, ⟨367, 367⟩]⟩

/-- A silent wave of 5001 samples: two blocks of `BufLen`. -/
def exLong : Wave := ⟨16000, List.replicate 5001 ⟨0, 0⟩⟩

/-- A silent wave of 12000 samples: three blocks of `BufLen`. -/
def exThreeBlocks : Wave := ⟨16000, List.replicate 12000 ⟨0, 0⟩⟩

/-- The filter for a cutoff of 4000 Hz at 16 kHz with Q = 1: the cutoff is a
quarter of the sampling rate, so `omg = π / 2`. -/
noncomputable def exFilter : Filter ℝ := Filter.new realFns 16000 4000 1

/-- The coefficients of `exFilter`, as rationals. -/
def exFilterQ : Filter ℚ :=
  { k0 := 1 / 3, k1 := 2 / 3, k2 := 1 / 3, k3 := 0, k4 := -(1 / 3), s := 16000, q := 1, f := 4000 }

/-- An engine holding `exWave` unfiltered, with one block whose flag is `valid`. -/
noncomputable def exEngine (valid : Bool) : Engine ℝ :=
  { wave := exWave, waveOrig := exWave, sound := Sound.new exWave, len := 3,
    filter := exFilter, out := {}, block := ⟨[valid]⟩ }

/-- An engine that has filtered `exWave` from a zeroed memory: the buffer holds
the filtered samples and the memory the last two of them. -/
noncomputable def exSeekEngine : Engine ℝ :=
  { wave := exFiltered, waveOrig := exWave, sound := Sound.new exWave, len := 3,
    filter := exFilter, out := { yl1 := 367, yl2 := 334, yr1 := 367, yr2 := 334 },
    block := ⟨[true]⟩ }

/-- The filter for a cutoff of 4000 Hz at 16 kHz with Q = 0.5. -/
noncomputable def exFilterHalf : Filter ℝ := Filter.new realFns 16000 4000 (1 / 2)

/-- The engine `exSeekEngine` after Q was lowered from 1 to 0.5: the buffer holds
the samples filtered with Q = 1, the coefficients are those of Q = 0.5. -/
noncomputable def exAdjusted : Engine ℝ :=
  { wave := exFiltered, waveOrig := exWave, sound := Sound.new exWave, len := 3,
    filter := exFilterHalf, out := { yl1 := 367, yl2 := 334, yr1 := 367, yr2 := 334 },
    block := ⟨[true]⟩ }

/-- An engine playing `exLong` with both blocks valid. -/
noncomputable def exLongEngine : Engine ℝ :=
  { wave := exLong, waveOrig := exLong, sound := Sound.new exLong, len := 5001,
    filter := exFilter, out := {}, block := ⟨[true, true]⟩ }

/-- An engine playing `exThreeBlocks` with blocks 0 and 2 valid. -/
noncomputable def exThreeEngine : Engine ℝ :=
  { wave := exThreeBlocks, waveOrig := exThreeBlocks, sound := Sound.new exThreeBlocks,
    len := 12000, filter := exFilter, out := {}, block := ⟨[true, false, true]⟩ }

/-- A pass in which nothing happens. -/
def exIdle : Input :=
  { pos := 0, keyLeft := false, keyRight := false, keyDown := false, keyUp := false,
    released := false, sliderClick := none, dropped := none }

/-- A pass in which an adjustment key is released and nothing else happens. -/
def exRelease : Input :=
  { pos := 0, keyLeft := false, keyRight := false, keyDown := false, keyUp := false,
    released := true, sliderClick := none, dropped := none }

/-- A pass in which the slider is clicked at its left end. -/
def exClick : Input :=
  { pos := 0, keyLeft := false, keyRight := false, keyDown := false, keyUp := false,
    released := false, sliderClick := some (0, 640), dropped := none }

/-! ## The loop of `applyFilter` -/

section LoopLemmas

variable {K : Type} [LinearOrderedField K] [FloorRing K]

theorem loop_add (filter : Filter K) (a b i : Nat) (st : Store K) :
    applyFilter.loop filter (a + b) i st
      = applyFilter.loop filter b (i + a) (applyFilter.loop filter a i st) := by
  induction a generalizing i st with
  | zero => simp [applyFilter.loop]
  | succ a ih =>
    rw [Nat.succ_add]
    simp only [applyFilter.loop]
    rw [ih]
    congr 1
    omega

theorem loop_waveOrig (filter : Filter K) (n i : Nat) (st : Store K) :
    (applyFilter.loop filter n i st).waveOrig = st.waveOrig := by
  induction n generalizing i st with
  | zero => rfl
  | succ n ih => simp only [applyFilter.loop]; rw [ih]; rfl

theorem applyFilter_waveOrig (sound : Sound) (wave waveOrig : Wave) (start length : Nat)
    (filter : Filter K) (out : OutputBuffer K) :
    (applyFilter sound wave waveOrig start length filter out).waveOrig = waveOrig := by
  unfold applyFilter
  rw [loop_waveOrig]

theorem Wave.get_set_eq (w : Wave) (i : Nat) (v : WaveSample) (h : i < w.lengthSample) :
    (w.set i v).get i = v := by
  unfold Wave.lengthSample at h
  simp [Wave.get, Wave.set, List.getD_eq_getElem?_getD, List.getElem?_set, h]

theorem Wave.get_set_ne (w : Wave) (i j : Nat) (v : WaveSample) (h : i ≠ j) :
    (w.set i v).get j = w.get j := by
  simp [Wave.get, Wave.set, List.getD_eq_getElem?_getD, List.getElem?_set, h]

theorem Wave.lengthSample_set (w : Wave) (i : Nat) (v : WaveSample) :
    (w.set i v).lengthSample = w.lengthSample := by
  simp [Wave.lengthSample, Wave.set]

theorem loop_succ_right (filter : Filter K) (n i : Nat) (st : Store K) :
    applyFilter.loop filter (n + 1) i st
      = applyFilter.body filter (i + n) (applyFilter.loop filter n i st) := by
  rw [loop_add]
  rfl

theorem loop_lengthSample (filter : Filter K) (n i : Nat) (st : Store K) :
    (applyFilter.loop filter n i st).wave.lengthSample = st.wave.lengthSample := by
  induction n generalizing i st with
  | zero => rfl
  | succ n ih =>
    simp only [applyFilter.loop]
    rw [ih]
    exact Wave.lengthSample_set _ _ _

theorem loop_get_outside (filter : Filter K) (n i j : Nat) (st : Store K)
    (h : j < i ∨ i + n ≤ j) :
    (applyFilter.loop filter n i st).wave.get j = st.wave.get j := by
  induction n generalizing i st with
  | zero => rfl
  | succ n ih =>
    simp only [applyFilter.loop]
    rw [ih (i + 1) _ (by omega)]
    exact Wave.get_set_ne _ _ _ _ (by omega)

theorem loop_get_inside (filter : Filter K) (n i j : Nat) (st : Store K)
    (hj : j < n) (hlen : i + j < st.wave.lengthSample) :
    (applyFilter.loop filter n i st).wave.get (i + j)
      = ⟨filteredSampleLeft st.waveOrig (i + j) filter (applyFilter.loop filter j i st).out,
         filteredSampleRight st.waveOrig (i + j) filter (applyFilter.loop filter j i st).out⟩ := by
  obtain ⟨d, rfl⟩ : ∃ d, n = j + 1 + d := ⟨n - j - 1, by omega⟩
  rw [loop_add, loop_get_outside _ _ _ _ _ (Or.inl (by omega)), loop_succ_right]
  unfold applyFilter.body
  simp only
  rw [Wave.get_set_eq _ _ _ (by rw [loop_lengthSample]; exact hlen), loop_waveOrig]

theorem loop_out_congr (filter : Filter K) (n i : Nat) (st st2 : Store K)
    (ho : st.out = st2.out) (hw : st.waveOrig = st2.waveOrig) :
    (applyFilter.loop filter n i st).out = (applyFilter.loop filter n i st2).out := by
  induction n generalizing i st st2 with
  | zero => exact ho
  | succ n ih =>
    simp only [applyFilter.loop]
    apply ih
    · simp only [applyFilter.body, ho, hw]
    · simp only [applyFilter.body, hw]
theorem Clamp_of_mem {α : Type} [LinearOrder α] (x lo hi : α) (h1 : lo ≤ x) (h2 : x ≤ hi) :
    Clamp x lo hi = x := by
  unfold Clamp
  rw [if_neg (not_lt.mpr h1), if_neg (not_lt.mpr h2)]

theorem Clamp_mem (y : Int) : -32768 ≤ Clamp y (-32768) 32767 ∧ Clamp y (-32768) 32767 ≤ 32767 := by
  unfold Clamp
  split_ifs <;> omega

theorem toInt32_of_fits (x : K) (h : fitsInt32 x) : toInt32 x = truncate x := by
  unfold toInt32
  exact if_pos h

theorem truncate_mem (x : K) (a b : Int) (ha : a ≤ 0) (hb : 0 ≤ b)
    (h1 : (a : K) ≤ x) (h2 : x ≤ (b : K)) : a ≤ truncate x ∧ truncate x ≤ b := by
  unfold truncate
  split_ifs with h0
  · have hf0 : 0 ≤ ⌊x⌋ := Int.floor_nonneg.mpr h0
    have hf : ⌊x⌋ ≤ b := by
      have h := Int.floor_le_floor h2
      rwa [Int.floor_intCast] at h
    omega
  · push_neg at h0
    have hc0 : ⌈x⌉ ≤ 0 := by
      rw [Int.ceil_le]; push_cast; linarith
    have hc : a ≤ ⌈x⌉ := by
      have h := Int.ceil_le_ceil h1
      rwa [Int.ceil_intCast] at h
    omega

theorem fitsInt32_of_bounds (x : K) (h1 : (-2147483648 : K) ≤ x) (h2 : x ≤ 2147483647) :
    fitsInt32 x := by
  apply truncate_mem x (-2147483648) 2147483647 (by decide) (by decide)
  · push_cast; exact h1
  · push_cast; exact h2

theorem Clamp_between {α : Type} [LinearOrder α] (x lo hi : α) (h : lo ≤ hi) :
    lo ≤ Clamp x lo hi ∧ Clamp x lo hi ≤ hi := by
  unfold Clamp
  split_ifs with h1 h2
  · exact ⟨le_refl _, h⟩
  · exact ⟨h, le_refl _⟩
  · exact ⟨not_lt.mp h1, not_lt.mp h2⟩

theorem fitsInt32_Clamp (y : K) : fitsInt32 (Clamp y (-32768) 32767) := by
  have h := Clamp_between y (-32768) 32767 (by norm_num)
  exact fitsInt32_of_bounds _ (by linarith [h.1]) (by linarith [h.2])

theorem filteredSampleLeft_eq (wave : Wave) (pos : Nat) (filter : Filter K)
    (out : OutputBuffer K) :
    filteredSampleLeft wave pos filter out
      = filteredSample filter (fun j => (wave.get j).left) pos out.yl1 out.yl2 := rfl

theorem filteredSampleRight_eq (wave : Wave) (pos : Nat) (filter : Filter K)
    (out : OutputBuffer K) :
    filteredSampleRight wave pos filter out
      = filteredSample filter (fun j => (wave.get j).right) pos out.yr1 out.yr2 := rfl

theorem cast_mem {F : Type} [LinearOrderedField F] (y : Int) (h : -32768 ≤ y ∧ y ≤ 32767) :
    (-32768 : F) ≤ (y : F) ∧ (y : F) ≤ 32767 := by
  constructor
  · have : ((-32768 : Int) : F) ≤ (y : F) := Int.cast_le.mpr h.1
    simpa using this
  · have : (y : F) ≤ ((32767 : Int) : F) := Int.cast_le.mpr h.2
    simpa using this

theorem filteredSampleLeft_mem (wave : Wave) (pos : Nat) (filter : Filter K)
    (out : OutputBuffer K) :
    -32768 ≤ filteredSampleLeft wave pos filter out
      ∧ filteredSampleLeft wave pos filter out ≤ 32767 :=
  Clamp_mem _

theorem filteredSampleRight_mem (wave : Wave) (pos : Nat) (filter : Filter K)
    (out : OutputBuffer K) :
    -32768 ≤ filteredSampleRight wave pos filter out
      ∧ filteredSampleRight wave pos filter out ≤ 32767 :=
  Clamp_mem _

theorem loop_out_first (filter : Filter K) (n i : Nat) (st : Store K) :
    ((-32768 : K) ≤ (applyFilter.loop filter (n + 1) i st).out.yl1
      ∧ (applyFilter.loop filter (n + 1) i st).out.yl1 ≤ 32767)
    ∧ ((-32768 : K) ≤ (applyFilter.loop filter (n + 1) i st).out.yr1
      ∧ (applyFilter.loop filter (n + 1) i st).out.yr1 ≤ 32767)
    ∧ (applyFilter.loop filter (n + 1) i st).out.yl2 = (applyFilter.loop filter n i st).out.yl1
    ∧ (applyFilter.loop filter (n + 1) i st).out.yr2 = (applyFilter.loop filter n i st).out.yr1 := by
  rw [loop_succ_right]
  exact ⟨cast_mem _ (filteredSampleLeft_mem _ _ _ _), cast_mem _ (filteredSampleRight_mem _ _ _ _),
    rfl, rfl⟩

/-- The sample the loop writes at index `s + j` is computed from the memory on
entry to step `j`. -/
theorem loop_get_code (filter : Filter K) (st : Store K) (n s j : Nat) (hj : j < n)
    (hl : s + j < st.wave.lengthSample) :
    ((applyFilter.loop filter n s st).wave.get (s + j)).left
        = filteredSample filter (fun j => (st.waveOrig.get j).left) (s + j)
            (applyFilter.loop filter j s st).out.yl1 (applyFilter.loop filter j s st).out.yl2
      ∧ ((applyFilter.loop filter n s st).wave.get (s + j)).right
        = filteredSample filter (fun j => (st.waveOrig.get j).right) (s + j)
            (applyFilter.loop filter j s st).out.yr1 (applyFilter.loop filter j s st).out.yr2 := by
  rw [loop_get_inside _ _ _ _ _ hj hl]
  exact ⟨rfl, rfl⟩

/-- The first sample a call of `applyFilter` writes is computed from the filter
memory the call was given. -/
theorem applyFilter_get_first (sound : Sound) (wave waveOrig : Wave) (start length : Nat)
    (filter : Filter K) (out : OutputBuffer K)
    (hlen : wave.lengthSample = sound.lengthSample)
    (hs : start < sound.lengthSample) (hl : 0 < length) :
    ((applyFilter sound wave waveOrig start length filter out).wave.get start).left
        = filteredSample filter (fun j => (waveOrig.get j).left) start out.yl1 out.yl2
      ∧ ((applyFilter sound wave waveOrig start length filter out).wave.get start).right
        = filteredSample filter (fun j => (waveOrig.get j).right) start out.yr1 out.yr2 := by
  unfold applyFilter
  have h := loop_get_code filter ⟨wave, waveOrig, out⟩
    (min (start + length) sound.lengthSample - start) start 0 (by omega) (by simp only; omega)
  simpa only [Nat.add_zero, applyFilter.loop] using h

theorem toInt32_of_nonneg (x : K) (n : Int) (hfit : fitsInt32 x) (h0 : 0 ≤ x)
    (h1 : (n : K) ≤ x) (h2 : x < n + 1) : toInt32 x = n := by
  rw [toInt32_of_fits x hfit]
  unfold truncate
  rw [if_pos h0, Int.floor_eq_iff]
  exact ⟨h1, h2⟩

theorem toInt32_of_neg (x : K) (n : Int) (hfit : fitsInt32 x) (h0 : x < 0)
    (h1 : (n : K) - 1 < x) (h2 : x ≤ n) : toInt32 x = n := by
  rw [toInt32_of_fits x hfit]
  unfold truncate
  rw [if_neg (not_le.mpr h0), Int.ceil_eq_iff]
  exact ⟨h1, h2⟩

/-- The sample of a sum `y` inside `[-32768, 32767]` whose truncation is `n`. -/
theorem filteredSample_eval (filter : Filter K) (source : Nat → Int) (i : Nat)
    (p1 p2 y : K) (n : Int) (hy : specSum filter source i p1 p2 = y)
    (hr : -32768 ≤ y ∧ y ≤ 32767)
    (hn : (0 ≤ y ∧ (n : K) ≤ y ∧ y < n + 1) ∨ (y < 0 ∧ (n : K) - 1 < y ∧ y ≤ n)) :
    filteredSample filter source i p1 p2 = n := by
  have hfit : fitsInt32 y := fitsInt32_of_bounds y (by linarith [hr.1]) (by linarith [hr.2])
  have ht : toInt32 y = n := by
    rcases hn with ⟨h0, h1, h2⟩ | ⟨h0, h1, h2⟩
    · exact toInt32_of_nonneg _ _ hfit h0 h1 h2
    · exact toInt32_of_neg _ _ hfit h0 h1 h2
  have hmem := truncate_mem y (-32768) 32767 (by decide) (by decide)
    (by push_cast; exact hr.1) (by push_cast; exact hr.2)
  rw [← toInt32_of_fits y hfit, ht] at hmem
  show Clamp (toInt32 (specSum filter source i p1 p2)) (-32768) 32767 = n
  rw [hy, ht, Clamp_of_mem _ _ _ hmem.1 hmem.2]

theorem loop_out_succ (filter : Filter K) (n i : Nat) (st : Store K) :
    (applyFilter.loop filter (n + 1) i st).out
      = { yl1 := (filteredSampleLeft st.waveOrig (i + n) filter
                    (applyFilter.loop filter n i st).out : K)
          yl2 := (applyFilter.loop filter n i st).out.yl1
          yr1 := (filteredSampleRight st.waveOrig (i + n) filter
                    (applyFilter.loop filter n i st).out : K)
          yr2 := (applyFilter.loop filter n i st).out.yr1 } := by
  rw [loop_succ_right]
  simp only [applyFilter.body, loop_waveOrig]

/-- Within one call, a sample from the third on is computed from the two samples
the call wrote just before it. -/
theorem applyFilter_get_recurrence (sound : Sound) (wave waveOrig : Wave) (start length : Nat)
    (filter : Filter K) (out : OutputBuffer K)
    (hlen : wave.lengthSample = sound.lengthSample) (i : Nat)
    (hs : start + 2 ≤ i) (hi : i < min (start + length) sound.lengthSample) :
    ((applyFilter sound wave waveOrig start length filter out).wave.get i).left
        = filteredSample filter (fun j => (waveOrig.get j).left) i
            (((applyFilter sound wave waveOrig start length filter out).wave.get (i - 1)).left : K)
            (((applyFilter sound wave waveOrig start length filter out).wave.get (i - 2)).left : K)
    ∧ ((applyFilter sound wave waveOrig start length filter out).wave.get i).right
        = filteredSample filter (fun j => (waveOrig.get j).right) i
            (((applyFilter sound wave waveOrig start length filter out).wave.get (i - 1)).right : K)
            (((applyFilter sound wave waveOrig start length filter out).wave.get (i - 2)).right : K) := by
  obtain ⟨j, rfl⟩ : ∃ j, i = start + (j + 2) := ⟨i - start - 2, by omega⟩
  have e1 : start + (j + 2) - 1 = start + (j + 1) := by omega
  have e2 : start + (j + 2) - 2 = start + j := by omega
  rw [e1, e2]
  unfold applyFilter
  rw [loop_get_inside _ _ _ (j + 2) _ (by omega) (by simp only; omega),
    loop_get_inside _ _ _ (j + 1) _ (by omega) (by simp only; omega),
    loop_get_inside _ _ _ j _ (by omega) (by simp only; omega)]
  simp only
  rw [filteredSampleLeft_eq _ (start + (j + 2)), filteredSampleRight_eq _ (start + (j + 2)),
    loop_out_succ filter (j + 1) start, loop_out_succ filter j start]
  exact ⟨rfl, rfl⟩

theorem specSample_mem (filter : Filter K) (source : Nat → Int) (i : Nat) (p1 p2 : K) :
    -32768 ≤ specSample filter source i p1 p2 ∧ specSample filter source i p1 p2 ≤ 32767 := by
  unfold specSample
  rw [toInt32_of_fits _ (fitsInt32_Clamp _)]
  have h := Clamp_between (specSum filter source i p1 p2) (-32768) 32767 (by norm_num)
  exact truncate_mem _ (-32768) 32767 (by decide) (by decide)
    (by push_cast; exact h.1) (by push_cast; exact h.2)

theorem specRegs_mem (filter : Filter K) (source : Nat → Int) (start : Nat) (entry : K × K)
    (h1 : -32768 ≤ entry.1 ∧ entry.1 ≤ 32767) (h2 : -32768 ≤ entry.2 ∧ entry.2 ≤ 32767)
    (n : Nat) :
    (-32768 ≤ (specRegs filter source start entry n).1
      ∧ (specRegs filter source start entry n).1 ≤ 32767)
    ∧ (-32768 ≤ (specRegs filter source start entry n).2
      ∧ (specRegs filter source start entry n).2 ≤ 32767) := by
  induction n with
  | zero => exact ⟨h1, h2⟩
  | succ n ih =>
    simp only [specRegs]
    exact ⟨cast_mem _ (specSample_mem _ _ _ _ _), ih.1⟩

theorem abs_mul_le_of_abs_le {F : Type} [LinearOrderedField F] (a b : F)
    (hb : |b| ≤ 32768) : |a * b| ≤ |a| * 32768 := by
  rw [abs_mul]
  exact mul_le_mul_of_nonneg_left hb (abs_nonneg a)

theorem abs_cast_le {F : Type} [LinearOrderedField F] (n : Int)
    (h : -32768 ≤ n ∧ n ≤ 32767) : |(n : F)| ≤ 32768 := by
  have h1 : (-32768 : F) ≤ (n : F) ∧ (n : F) ≤ 32767 := cast_mem n h
  rw [abs_le]
  constructor <;> linarith [h1.1, h1.2]

/-- A sum fits `int32` when the absolute values of the coefficients add up to at
most 65535, the samples of the source are 16-bit and the two registers lie
between -32768 and 32768. -/
theorem fitsInt32_specSum (filter : Filter K) (source : Nat → Int) (i : Nat) (p1 p2 : K)
    (hk : |filter.k0| + |filter.k1| + |filter.k2| + |filter.k3| + |filter.k4| ≤ 65535)
    (hsrc : ∀ j, -32768 ≤ source j ∧ source j ≤ 32767)
    (hp1 : |p1| ≤ 32768) (hp2 : |p2| ≤ 32768) :
    fitsInt32 (specSum filter source i p1 p2) := by
  have hw1 : |(((if i ≥ 1 then source (i - 1) else 0 : Int)) : K)| ≤ 32768 := by
    split_ifs
    · exact abs_cast_le _ (hsrc _)
    · simp
  have hw2 : |(((if i ≥ 2 then source (i - 2) else 0 : Int)) : K)| ≤ 32768 := by
    split_ifs
    · exact abs_cast_le _ (hsrc _)
    · simp
  have h0 := abs_mul_le_of_abs_le filter.k0 (source i : K) (abs_cast_le _ (hsrc i))
  have h1 := abs_mul_le_of_abs_le filter.k1 _ hw1
  have h2 := abs_mul_le_of_abs_le filter.k2 _ hw2
  have h3 := abs_mul_le_of_abs_le filter.k3 p1 hp1
  have h4 := abs_mul_le_of_abs_le filter.k4 p2 hp2
  have hsum : |specSum filter source i p1 p2| ≤ 2147450880 := by
    unfold specSum
    simp only
    have t1 := abs_add (filter.k0 * (source i : K)
      + filter.k1 * (((if i ≥ 1 then source (i - 1) else 0 : Int)) : K)
      + filter.k2 * (((if i ≥ 2 then source (i - 2) else 0 : Int)) : K)
      + filter.k3 * p1) (filter.k4 * p2)
    have t2 := abs_add (filter.k0 * (source i : K)
      + filter.k1 * (((if i ≥ 1 then source (i - 1) else 0 : Int)) : K)
      + filter.k2 * (((if i ≥ 2 then source (i - 2) else 0 : Int)) : K)) (filter.k3 * p1)
    have t3 := abs_add (filter.k0 * (source i : K)
      + filter.k1 * (((if i ≥ 1 then source (i - 1) else 0 : Int)) : K))
      (filter.k2 * (((if i ≥ 2 then source (i - 2) else 0 : Int)) : K))
    have t4 := abs_add (filter.k0 * (source i : K))
      (filter.k1 * (((if i ≥ 1 then source (i - 1) else 0 : Int)) : K))
    nlinarith [abs_nonneg filter.k0, abs_nonneg filter.k1, abs_nonneg filter.k2,
      abs_nonneg filter.k3, abs_nonneg filter.k4]
  rw [abs_le] at hsum
  exact fitsInt32_of_bounds _ (by linarith [hsum.1]) (by linarith [hsum.2])

/-- The sums of a call of `applyFilter` all fit `int32` when the absolute values
of the coefficients add up to at most 65535, the samples of the original wave are
16-bit and the memory the call is given lies in `[-32768, 32767]`. -/
theorem applyFilter_sums_fit (waveOrig : Wave) (start : Nat)
    (filter : Filter K) (out : OutputBuffer K)
    (hk : |filter.k0| + |filter.k1| + |filter.k2| + |filter.k3| + |filter.k4| ≤ 65535)
    (hsrc : ∀ j, (-32768 ≤ (waveOrig.get j).left ∧ (waveOrig.get j).left ≤ 32767)
      ∧ (-32768 ≤ (waveOrig.get j).right ∧ (waveOrig.get j).right ≤ 32767))
    (hout : (-32768 ≤ out.yl1 ∧ out.yl1 ≤ 32767) ∧ (-32768 ≤ out.yl2 ∧ out.yl2 ≤ 32767)
      ∧ (-32768 ≤ out.yr1 ∧ out.yr1 ≤ 32767) ∧ (-32768 ≤ out.yr2 ∧ out.yr2 ≤ 32767)) :
    (∀ j, fitsInt32 (specSum filter (fun j => (waveOrig.get j).left) (start + j)
        (specRegs filter (fun j => (waveOrig.get j).left) start (out.yl1, out.yl2) j).1
        (specRegs filter (fun j => (waveOrig.get j).left) start (out.yl1, out.yl2) j).2))
    ∧ (∀ j, fitsInt32 (specSum filter (fun j => (waveOrig.get j).right) (start + j)
        (specRegs filter (fun j => (waveOrig.get j).right) start (out.yr1, out.yr2) j).1
        (specRegs filter (fun j => (waveOrig.get j).right) start (out.yr1, out.yr2) j).2)) := by
  constructor
  · intro j
    have h := specRegs_mem filter (fun j => (waveOrig.get j).left) start (out.yl1, out.yl2)
      hout.1 hout.2.1 j
    exact fitsInt32_specSum _ _ _ _ _ hk (fun j => (hsrc j).1)
      (by rw [abs_le]; constructor <;> linarith [h.1.1, h.1.2])
      (by rw [abs_le]; constructor <;> linarith [h.2.1, h.2.2])
  · intro j
    have h := specRegs_mem filter (fun j => (waveOrig.get j).right) start (out.yr1, out.yr2)
      hout.2.2.1 hout.2.2.2 j
    exact fitsInt32_specSum _ _ _ _ _ hk (fun j => (hsrc j).2)
      (by rw [abs_le]; constructor <;> linarith [h.1.1, h.1.2])
      (by rw [abs_le]; constructor <;> linarith [h.2.1, h.2.2])

end LoopLemmas

/-! ## The block flags -/

theorem FilteredBlock.flag_set_eq (b : FilteredBlock) (i : Nat) (v : Bool)
    (h : i < b.block.length) : (b.set i v).get i = v := by
  simp [FilteredBlock.get, FilteredBlock.set, List.getD_eq_getElem?_getD, List.getElem?_set, h]

theorem FilteredBlock.flag_set_ne (b : FilteredBlock) (i j : Nat) (v : Bool) (h : i ≠ j) :
    (b.set i v).get j = b.get j := by
  simp [FilteredBlock.get, FilteredBlock.set, List.getD_eq_getElem?_getD, List.getElem?_set, h]

theorem FilteredBlock.get_reset (b : FilteredBlock) (j : Nat) : b.reset.get j = false := by
  simp only [FilteredBlock.get, FilteredBlock.reset, List.getD_eq_getElem?_getD,
    List.getElem?_map]
  cases b.block[j]? <;> rfl

theorem FilteredBlock.length_reset (b : FilteredBlock) :
    b.reset.block.length = b.block.length := by
  simp [FilteredBlock.reset]

theorem FilteredBlock.length_set (b : FilteredBlock) (i : Nat) (v : Bool) :
    (b.set i v).block.length = b.block.length := by
  simp [FilteredBlock.set]

theorem FilteredBlock.length_new (N B : Nat) :
    (FilteredBlock.new N B).block.length = N / B + (if N % B ≠ 0 then 1 else 0) := by
  simp [FilteredBlock.new]

theorem blockCount_spec (N B : Nat) (hB : 0 < B) :
    N ≤ (N / B + (if N % B ≠ 0 then 1 else 0)) * B
    ∧ ∀ k, N ≤ k * B → N / B + (if N % B ≠ 0 then 1 else 0) ≤ k := by
  have hdm := Nat.div_add_mod N B
  have hmod := Nat.mod_lt N hB
  constructor
  · split_ifs with h
    · rw [Nat.add_mul, Nat.mul_comm (N / B) B]; omega
    · rw [Nat.add_zero, Nat.mul_comm (N / B) B]; omega
  · intro k hk
    have h1 : N / B ≤ k := by
      apply Nat.div_le_of_le_mul
      rw [Nat.mul_comm]; exact hk
    split_ifs with h
    · rcases Nat.lt_or_ge (N / B) k with h2 | h2
      · omega
      · have h3 : k = N / B := by omega
        rw [h3, Nat.mul_comm] at hk
        omega
    · omega

theorem blockCount_eq_ceil (N B : Nat) (hB : 0 < B) :
    N / B + (if N % B ≠ 0 then 1 else 0) = ⌈(N : ℚ) / (B : ℚ)⌉₊ := by
  have hBq : (0 : ℚ) < (B : ℚ) := by exact_mod_cast hB
  have hspec := blockCount_spec N B hB
  apply le_antisymm
  · apply hspec.2
    have h := Nat.le_ceil ((N : ℚ) / (B : ℚ))
    rw [div_le_iff₀ hBq] at h
    exact_mod_cast h
  · rw [Nat.ceil_le, div_le_iff₀ hBq]
    exact_mod_cast hspec.1

theorem idxBlock_lt_aux (len pos B : Nat) (hlen : 0 < len) (hB : 0 < B) :
    Main.idxBlock B pos len < len / B + (if len % B ≠ 0 then 1 else 0) := by
  unfold Main.idxBlock
  have h1 : (pos + B) % len < len := Nat.mod_lt _ hlen
  have h2 := (blockCount_spec len B hB).1
  rw [Nat.div_lt_iff_lt_mul hB]
  omega

theorem div_lt_blockCount (len x B : Nat) (hx : x < len) (hB : 0 < B) :
    x / B < len / B + (if len % B ≠ 0 then 1 else 0) := by
  have h2 := (blockCount_spec len B hB).1
  rw [Nat.div_lt_iff_lt_mul hB]
  omega

/-! ## The loop of `Main` -/

section MainLemmas

variable {K : Type} [LinearOrderedField K] [FloorRing K]

theorem tick_no_event (m : MathFns K) (B : Nat) (inp : Input) (e : Engine K)
    (hclick : inp.sliderClick = none) (hdrop : inp.dropped = none) :
    Main.tick m B inp e = Main.lookahead m B inp { e with filter := Main.adjust inp e.filter } := by
  unfold Main.tick
  simp only [hclick, hdrop]

theorem tick_click (m : MathFns K) (B : Nat) (inp : Input) (e : Engine K) (x W : Nat)
    (hclick : inp.sliderClick = some (x, W)) (hdrop : inp.dropped = none) :
    Main.tick m B inp e
      = Main.seek m B x W (Main.lookahead m B inp { e with filter := Main.adjust inp e.filter }) := by
  unfold Main.tick
  simp only [hclick, hdrop]

theorem lookahead_len (m : MathFns K) (B : Nat) (inp : Input) (e : Engine K) :
    (Main.lookahead m B inp e).len = e.len := by
  unfold Main.lookahead
  simp only
  split_ifs <;> rfl

theorem lookahead_block_length (m : MathFns K) (B : Nat) (inp : Input) (e : Engine K) :
    (Main.lookahead m B inp e).block.block.length = e.block.block.length := by
  unfold Main.lookahead
  simp only
  split_ifs <;>
    simp only [FilteredBlock.length_set, FilteredBlock.length_reset]

theorem lookahead_get_idx (m : MathFns K) (B : Nat) (inp : Input) (e : Engine K)
    (hidx : Main.idxBlock B inp.pos e.len < e.block.block.length) :
    (Main.lookahead m B inp e).block.get (Main.idxBlock B inp.pos e.len) = true := by
  unfold Main.lookahead
  simp only
  cases hrel : inp.released
  · simp only [Bool.false_eq_true, if_false]
    cases hval : e.block.get (Main.idxBlock B inp.pos e.len)
    · simp only [Bool.not_false, if_true]
      exact FilteredBlock.flag_set_eq _ _ _ hidx
    · simp only [Bool.not_true, Bool.false_eq_true, if_false]
      exact hval
  · have hget : ((e.block.reset).set (Main.idxBlock B inp.pos e.len) true).get
        (Main.idxBlock B inp.pos e.len) = true :=
      FilteredBlock.flag_set_eq _ _ _ (by rw [FilteredBlock.length_reset]; exact hidx)
    simp only [if_true, hget, Bool.not_true, Bool.false_eq_true, if_false]

theorem lookahead_released (m : MathFns K) (B : Nat) (inp : Input) (e : Engine K)
    (hidx : Main.idxBlock B inp.pos e.len < e.block.block.length)
    (hrel : inp.released = true) :
    Main.lookahead m B inp e
      = { e with filter := if inp.anyPressed then e.filter.calc m else e.filter,
                 block := (e.block.reset).set (Main.idxBlock B inp.pos e.len) true } := by
  have hget : ((e.block.reset).set (Main.idxBlock B inp.pos e.len) true).get
      (Main.idxBlock B inp.pos e.len) = true :=
    FilteredBlock.flag_set_eq _ _ _ (by rw [FilteredBlock.length_reset]; exact hidx)
  unfold Main.lookahead
  simp only [hrel, if_true, hget, Bool.not_true, Bool.false_eq_true, if_false]

theorem lookahead_invalid (m : MathFns K) (B : Nat) (inp : Input) (e : Engine K)
    (hrel : inp.released = false)
    (hinv : e.block.get (Main.idxBlock B inp.pos e.len) = false) :
    (Main.lookahead m B inp e).wave
        = (applyFilter e.sound e.wave e.waveOrig (Main.idxBlock B inp.pos e.len * B) B
            (Main.lookahead m B inp e).filter e.out).wave
    ∧ (Main.lookahead m B inp e).out
        = (applyFilter e.sound e.wave e.waveOrig (Main.idxBlock B inp.pos e.len * B) B
            (Main.lookahead m B inp e).filter e.out).out := by
  unfold Main.lookahead
  simp only [hrel, Bool.false_eq_true, if_false, hinv, Bool.not_false, if_true, and_self]

theorem lookahead_valid_kept (m : MathFns K) (B : Nat) (inp : Input) (e : Engine K)
    (hrel : inp.released = false)
    (hval : e.block.get (Main.idxBlock B inp.pos e.len) = true) :
    (Main.lookahead m B inp e).wave = e.wave ∧ (Main.lookahead m B inp e).out = e.out := by
  unfold Main.lookahead
  simp only [hrel, Bool.false_eq_true, if_false, hval, Bool.not_true, and_self]

theorem seek_block_eq (m : MathFns K) (B x W : Nat) (e : Engine K) :
    (Main.seek m B x W e).block = (e.block.reset).set (e.len * x / W / B) true := rfl

/-- The flags `Main` starts with are those of `FilteredBlock(len, BufLen)`. -/
theorem init_block_length (m : MathFns K) (B : Nat) (file : Wave) :
    (Main.init m B file).block.block.length
      = (FilteredBlock.new (Main.init m B file).len B).block.length := by
  simp only [Main.init, FilteredBlock.length_set, Sound.new]

theorem seek_block_length (m : MathFns K) (B x W : Nat) (e : Engine K) :
    (Main.seek m B x W e).block.block.length = e.block.block.length := by
  rw [seek_block_eq, FilteredBlock.length_set, FilteredBlock.length_reset]

theorem seek_len (m : MathFns K) (B x W : Nat) (e : Engine K) :
    (Main.seek m B x W e).len = e.len := rfl

theorem reload_block_length (m : MathFns K) (B : Nat) (file : Wave) (e : Engine K) :
    (Main.reload m B file e).block.block.length
      = (FilteredBlock.new (Main.reload m B file e).len B).block.length := by
  simp only [Main.reload, FilteredBlock.length_set, FilteredBlock.length_reset]

/-- Every pass of the loop keeps one flag per block of the wave being played. -/
theorem tick_block_length (m : MathFns K) (B : Nat) (inp : Input) (e : Engine K)
    (h : e.block.block.length = (FilteredBlock.new e.len B).block.length) :
    (Main.tick m B inp e).block.block.length
      = (FilteredBlock.new (Main.tick m B inp e).len B).block.length := by
  unfold Main.tick
  simp only
  cases hd : inp.dropped with
  | some file => exact reload_block_length m B file _
  | none =>
    cases hc : inp.sliderClick with
    | some xw =>
      obtain ⟨x, W⟩ := xw
      simp only
      rw [seek_block_length, seek_len, lookahead_block_length, lookahead_len]
      exact h
    | none =>
      simp only
      rw [lookahead_block_length, lookahead_len]
      exact h

end MainLemmas

/-! ## Computations on the example data -/

theorem calc_quarter (flt : Filter ℝ) (hs : flt.s = 16000) (hq : flt.q = 1) (hf : flt.f = 4000) :
    flt.calc realFns
      = { k0 := 1 / 3, k1 := 2 / 3, k2 := 1 / 3, k3 := 0, k4 := -(1 / 3),
          s := 16000, q := 1, f := 4000 } := by
  have homg : flt.omg realFns = Real.pi / 2 := by
    simp only [Filter.omg, realFns, hs, hf]
    ring
  have halpha : flt.alpha realFns = 1 / 2 := by
    simp only [Filter.alpha, homg, hq]
    simp only [realFns, Real.sin_pi_div_two]
    norm_num
  have ha0 : flt.a0 realFns = 3 / 2 := by
    simp only [Filter.a0, halpha]
    norm_num
  have hcos : realFns.Cos (Real.pi / 2) = 0 := by
    simp only [realFns, Real.cos_pi_div_two]
  simp only [Filter.calc, homg, halpha, ha0, hcos, hs, hq, hf]
  norm_num

theorem exFilter_eq :
    exFilter = { k0 := 1 / 3, k1 := 2 / 3, k2 := 1 / 3, k3 := 0, k4 := -(1 / 3),
                 s := 16000, q := 1, f := 4000 } := by
  unfold exFilter Filter.new
  apply calc_quarter <;> norm_num

theorem adjust_idle (inp : Input) (flt : Filter ℝ)
    (hl : inp.keyLeft = false) (hr : inp.keyRight = false)
    (hd : inp.keyDown = false) (hu : inp.keyUp = false)
    (hf : 40 ≤ flt.f ∧ flt.f ≤ 5000) (hq : 10 / 100 ≤ flt.q ∧ flt.q ≤ 10) :
    Main.adjust inp flt = flt := by
  unfold Main.adjust
  simp only [hl, hr, hd, hu, Bool.false_eq_true, if_false]
  rw [Clamp_of_mem _ _ _ hf.1 hf.2, Clamp_of_mem _ _ _ hq.1 hq.2]

theorem adjust_exFilter (inp : Input)
    (hl : inp.keyLeft = false) (hr : inp.keyRight = false)
    (hd : inp.keyDown = false) (hu : inp.keyUp = false) :
    Main.adjust inp exFilter = exFilter := by
  apply adjust_idle inp exFilter hl hr hd hu <;> rw [exFilter_eq] <;> norm_num

theorem tick_exRelease (valid : Bool) :
    Main.tick realFns BufLen exRelease (exEngine valid)
      = { exEngine valid with block := ⟨[true]⟩ } := by
  have hidx : Main.idxBlock BufLen exRelease.pos (exEngine valid).len = 0 := by
    show Main.idxBlock 5000 0 3 = 0
    decide
  have hf : (if exRelease.anyPressed = true
      then Filter.calc realFns (Main.adjust exRelease (exEngine valid).filter)
      else Main.adjust exRelease (exEngine valid).filter) = (exEngine valid).filter := by
    rw [if_neg (by decide)]
    exact adjust_exFilter exRelease rfl rfl rfl rfl
  have hb : (exEngine valid).block.reset.set 0 true = ⟨[true]⟩ := rfl
  rw [tick_no_event realFns BufLen exRelease (exEngine valid) rfl rfl,
    lookahead_released realFns BufLen exRelease _ (by rw [hidx]; exact Nat.zero_lt_one) rfl]
  simp only [hidx]
  rw [hf, hb]

theorem filteredSample_exFilter (source : Nat → Int) (i : Nat) (p1 p2 y : ℝ) (n : Int)
    (hy : (1 / 3 : ℝ) * (source i : ℝ)
        + 2 / 3 * ((if i ≥ 1 then source (i - 1) else 0 : Int) : ℝ)
        + 1 / 3 * ((if i ≥ 2 then source (i - 2) else 0 : Int) : ℝ)
        + 0 * p1 + -(1 / 3) * p2 = y)
    (hr : -32768 ≤ y ∧ y ≤ 32767)
    (hn : (0 ≤ y ∧ (n : ℝ) ≤ y ∧ y < n + 1) ∨ (y < 0 ∧ (n : ℝ) - 1 < y ∧ y ≤ n)) :
    filteredSample exFilter source i p1 p2 = n := by
  apply filteredSample_eval _ _ _ _ _ y n _ hr hn
  rw [exFilter_eq]
  exact hy

theorem exWave_not_filtered (c : OutputBuffer ℝ) (w : Wave) (hw : w.lengthSample = 3) :
    ¬ ∀ i, i < 3 →
      exWave.get i = (applyFilter (Sound.new exWave) w exWave 0 BufLen exFilter c).wave.get i := by
  intro h
  have h0 := h 0 (by decide)
  have h1 := h 1 (by decide)
  have h2 := h 2 (by decide)
  have hrec := (applyFilter_get_recurrence (Sound.new exWave) w exWave 0 BufLen exFilter c
    hw 2 (by decide) (by decide)).1
  rw [← h2, ← h1, ← h0] at hrec
  have hval : filteredSample exFilter (fun j => (exWave.get j).left) 2
      (((exWave.get (2 - 1)).left : Int) : ℝ) (((exWave.get (2 - 2)).left : Int) : ℝ) = 300 :=
    filteredSample_exFilter _ 2 _ _ 300 300
      (by simp [exWave, Wave.get]; norm_num) (by norm_num) (Or.inl (by norm_num))
  rw [hval] at hrec
  simp [exWave, Wave.get] at hrec

theorem filteredSample_exFilter_first (p1 p2 y : ℝ) (n : Int)
    (hy : (1 / 3 : ℝ) * 302 + -(1 / 3) * p2 = y)
    (hr : -32768 ≤ y ∧ y ≤ 32767)
    (hn : (0 ≤ y ∧ (n : ℝ) ≤ y ∧ y < n + 1) ∨ (y < 0 ∧ (n : ℝ) - 1 < y ∧ y ≤ n)) :
    filteredSample (exFilter.calc realFns) (fun j => (exWave.get j).left) 0 p1 p2 = n
    ∧ filteredSample (exFilter.calc realFns) (fun j => (exWave.get j).right) 0 p1 p2 = n := by
  rw [calc_quarter exFilter (by rw [exFilter_eq]) (by rw [exFilter_eq]) (by rw [exFilter_eq])]
  constructor <;>
  · apply filteredSample_eval _ _ _ _ _ y n _ hr hn
    rw [← hy]
    simp [specSum, exWave, Wave.get]

/-- Filtering `exWave` with `exFilter` from a zeroed memory gives `exFiltered` and
leaves the memory `(367, 334)` in both channels. -/
theorem filtered_exWave :
    (applyFilter (Sound.new exWave) exWave exWave 0 BufLen exFilter {}).wave = exFiltered
    ∧ (applyFilter (Sound.new exWave) exWave exWave 0 BufLen exFilter {}).out
        = { yl1 := 367, yl2 := 334, yr1 := 367, yr2 := 334 } := by
  have hl0 : ∀ p1 : ℝ, filteredSample exFilter (fun j => (exWave.get j).left) 0 p1 0 = 100 :=
    fun p1 => filteredSample_exFilter _ 0 p1 0 (302 / 3) 100
      (by simp [exWave, Wave.get]; norm_num) (by norm_num) (Or.inl (by norm_num))
  have hr0 : ∀ p1 : ℝ, filteredSample exFilter (fun j => (exWave.get j).right) 0 p1 0 = 100 :=
    fun p1 => filteredSample_exFilter _ 0 p1 0 (302 / 3) 100
      (by simp [exWave, Wave.get]; norm_num) (by norm_num) (Or.inl (by norm_num))
  have hl1 : ∀ p1 : ℝ, filteredSample exFilter (fun j => (exWave.get j).left) 1 p1 0 = 334 :=
    fun p1 => filteredSample_exFilter _ 1 p1 0 (1004 / 3) 334
      (by simp [exWave, Wave.get]; norm_num) (by norm_num) (Or.inl (by norm_num))
  have hr1 : ∀ p1 : ℝ, filteredSample exFilter (fun j => (exWave.get j).right) 1 p1 0 = 334 :=
    fun p1 => filteredSample_exFilter _ 1 p1 0 (1004 / 3) 334
      (by simp [exWave, Wave.get]; norm_num) (by norm_num) (Or.inl (by norm_num))
  have hl2 : ∀ p1 : ℝ, filteredSample exFilter (fun j => (exWave.get j).left) 2 p1 100 = 367 :=
    fun p1 => filteredSample_exFilter _ 2 p1 100 (1102 / 3) 367
      (by simp [exWave, Wave.get]; norm_num) (by norm_num) (Or.inl (by norm_num))
  have hr2 : ∀ p1 : ℝ, filteredSample exFilter (fun j => (exWave.get j).right) 2 p1 100 = 367 :=
    fun p1 => filteredSample_exFilter _ 2 p1 100 (1102 / 3) 367
      (by simp [exWave, Wave.get]; norm_num) (by norm_num) (Or.inl (by norm_num))
  have hrun : applyFilter (Sound.new exWave) exWave exWave 0 BufLen exFilter {}
      = applyFilter.loop exFilter 3 0 ⟨exWave, exWave, {}⟩ := rfl
  rw [hrun]
  simp only [applyFilter.loop, applyFilter.body, filteredSampleLeft_eq,
    filteredSampleRight_eq, hl0, hr0, Int.cast_ofNat, hl1, hr1, hl2, hr2]
  exact ⟨rfl, trivial⟩

/-- An idle pass on the unfiltered `exWave` filters block 0 and leads to
`exSeekEngine`. -/
theorem tick_exIdle : Main.tick realFns BufLen exIdle (exEngine false) = exSeekEngine := by
  have hidx : Main.idxBlock BufLen exIdle.pos (exEngine false).len = 0 := by
    show Main.idxBlock 5000 0 3 = 0
    decide
  have hf : Main.adjust exIdle exFilter = exFilter := adjust_exFilter exIdle rfl rfl rfl rfl
  rw [tick_no_event realFns BufLen exIdle (exEngine false) rfl rfl]
  unfold Main.lookahead
  simp only [hidx]
  have hflag : (exEngine false).block.get 0 = false := rfl
  have hrel : exIdle.released = false := rfl
  have hany : exIdle.anyPressed = false := rfl
  simp only [hrel, hany, hflag, Bool.false_eq_true, if_false, Bool.not_false, if_true]
  have hflt : Main.adjust exIdle (exEngine false).filter = exFilter := hf
  rw [hflt]
  have h := filtered_exWave
  have h0 : (0 : Nat) * BufLen = 0 := Nat.zero_mul _
  rw [h0]
  show ({ wave := (applyFilter (Sound.new exWave) exWave exWave 0 BufLen exFilter {}).wave,
          waveOrig := (applyFilter (Sound.new exWave) exWave exWave 0 BufLen exFilter {}).waveOrig,
          sound := Sound.new exWave, len := 3, filter := exFilter,
          out := (applyFilter (Sound.new exWave) exWave exWave 0 BufLen exFilter {}).out,
          block := ⟨[true]⟩ } : Engine ℝ) = exSeekEngine
  rw [h.1, h.2, applyFilter_waveOrig]
  rfl

theorem calc_quarter_half (flt : Filter ℝ) (hs : flt.s = 16000) (hq : flt.q = 1 / 2)
    (hf : flt.f = 4000) :
    flt.calc realFns
      = { k0 := 1 / 4, k1 := 1 / 2, k2 := 1 / 4, k3 := 0, k4 := 0,
          s := 16000, q := 1 / 2, f := 4000 } := by
  have homg : flt.omg realFns = Real.pi / 2 := by
    simp only [Filter.omg, realFns, hs, hf]
    ring
  have halpha : flt.alpha realFns = 1 := by
    simp only [Filter.alpha, homg, hq]
    simp only [realFns, Real.sin_pi_div_two]
    norm_num
  have ha0 : flt.a0 realFns = 2 := by
    simp only [Filter.a0, halpha]
    norm_num
  have hcos : realFns.Cos (Real.pi / 2) = 0 := by
    simp only [realFns, Real.cos_pi_div_two]
  simp only [Filter.calc, homg, halpha, ha0, hcos, hs, hq, hf]
  norm_num

theorem exFilterHalf_eq :
    exFilterHalf = { k0 := 1 / 4, k1 := 1 / 2, k2 := 1 / 4, k3 := 0, k4 := 0,
                     s := 16000, q := 1 / 2, f := 4000 } := by
  unfold exFilterHalf Filter.new
  apply calc_quarter_half <;> norm_num

theorem tick_exRelease_adjusted :
    Main.tick realFns BufLen exRelease exAdjusted = exAdjusted := by
  have hidx : Main.idxBlock BufLen exRelease.pos exAdjusted.len = 0 := by
    show Main.idxBlock 5000 0 3 = 0
    decide
  have hadj : Main.adjust exRelease exFilterHalf = exFilterHalf := by
    apply adjust_idle exRelease exFilterHalf rfl rfl rfl rfl <;> rw [exFilterHalf_eq] <;> norm_num
  have hf : (if exRelease.anyPressed = true
      then Filter.calc realFns (Main.adjust exRelease exAdjusted.filter)
      else Main.adjust exRelease exAdjusted.filter) = exAdjusted.filter := by
    rw [if_neg (by decide)]
    exact hadj
  have hb : exAdjusted.block.reset.set 0 true = exAdjusted.block := rfl
  rw [tick_no_event realFns BufLen exRelease exAdjusted rfl rfl,
    lookahead_released realFns BufLen exRelease _ (by rw [hidx]; exact Nat.zero_lt_one) rfl]
  simp only [hidx]
  rw [hf, hb]

theorem exFiltered_not_half (c : OutputBuffer ℝ) (w : Wave) (hw : w.lengthSample = 3) :
    ¬ ∀ i, i < 3 →
      exFiltered.get i
        = (applyFilter (Sound.new exWave) w exWave 0 BufLen exFilterHalf c).wave.get i := by
  intro h
  have h0 := congrArg WaveSample.left (h 0 (by decide))
  rw [(applyFilter_get_first (Sound.new exWave) w exWave 0 BufLen exFilterHalf c hw
    (by decide) (by decide)).1] at h0
  have hv : filteredSample exFilterHalf (fun j => (exWave.get j).left) 0 c.yl1 c.yl2 = 75 := by
    apply filteredSample_eval _ _ _ _ _ (151 / 2) 75 _ (by norm_num) (Or.inl (by norm_num))
    rw [exFilterHalf_eq]
    simp [specSum, exWave, Wave.get]
    norm_num
  rw [hv] at h0
  simp [exFiltered, Wave.get] at h0

/-! ## Claims -/

section Claims

variable {K : Type} [LinearOrderedField K] [FloorRing K]

/-- C1: running `applyFilter` over `(start, a)` and then over `(start + a, b)`,
on the buffer and with the filter memory left by the first call, gives the same
output buffer and the same filter memory as one call over `(start, a + b)`. -/
theorem applyFilter_split (sound : Sound) (wave waveOrig : Wave) (start a b : Nat)
    (filter : Filter K) (out : OutputBuffer K) :
    applyFilter sound
        (applyFilter sound wave waveOrig start a filter out).wave waveOrig (start + a) b filter
        (applyFilter sound wave waveOrig start a filter out).out
      = applyFilter sound wave waveOrig start (a + b) filter out := by
  have hw := applyFilter_waveOrig sound wave waveOrig start a filter out
  have hst : (⟨(applyFilter sound wave waveOrig start a filter out).wave, waveOrig,
      (applyFilter sound wave waveOrig start a filter out).out⟩ : Store K)
      = applyFilter sound wave waveOrig start a filter out := by
    cases h : applyFilter sound wave waveOrig start a filter out
    rw [h] at hw
    simp only at hw
    rw [hw]
  unfold applyFilter at hst ⊢
  rw [hst]
  rcases Nat.lt_or_ge (start + a) sound.lengthSample with h | h
  · have h1 : min (start + a) sound.lengthSample - start = a := by omega
    have h2 : min (start + (a + b)) sound.lengthSample - start
        = a + (min (start + a + b) sound.lengthSample - (start + a)) := by omega
    rw [h1, h2, loop_add]
  · have h1 : min (start + a + b) sound.lengthSample - (start + a) = 0 := by omega
    have h2 : min (start + (a + b)) sound.lengthSample - start
        = min (start + a) sound.lengthSample - start := by omega
    rw [h1, h2]
    rfl

/-- C3, amended: every sample `applyFilter` writes lies in `[-32768, 32767]`, in
both channels, and so does `yl1` and `yr1` of the filter memory after every
step.  After one step `yl2` and `yr2` hold the `yl1` and `yr1` the call was
given; from the second step on they lie in `[-32768, 32767]` as well. -/
theorem applyFilter_range (sound : Sound) (wave waveOrig : Wave) (start length : Nat)
    (filter : Filter K) (out : OutputBuffer K)
    (hlen : wave.lengthSample = sound.lengthSample) :
    (∀ i, start ≤ i → i < min (start + length) sound.lengthSample →
        (-32768 ≤ ((applyFilter sound wave waveOrig start length filter out).wave.get i).left
          ∧ ((applyFilter sound wave waveOrig start length filter out).wave.get i).left ≤ 32767)
        ∧ (-32768 ≤ ((applyFilter sound wave waveOrig start length filter out).wave.get i).right
          ∧ ((applyFilter sound wave waveOrig start length filter out).wave.get i).right ≤ 32767))
    ∧ (1 ≤ min (start + length) sound.lengthSample - start →
        ((-32768 : K) ≤ (applyFilter sound wave waveOrig start length filter out).out.yl1
          ∧ (applyFilter sound wave waveOrig start length filter out).out.yl1 ≤ 32767)
        ∧ ((-32768 : K) ≤ (applyFilter sound wave waveOrig start length filter out).out.yr1
          ∧ (applyFilter sound wave waveOrig start length filter out).out.yr1 ≤ 32767))
    ∧ (min (start + length) sound.lengthSample - start = 1 →
        (applyFilter sound wave waveOrig start length filter out).out.yl2 = out.yl1
        ∧ (applyFilter sound wave waveOrig start length filter out).out.yr2 = out.yr1)
    ∧ (2 ≤ min (start + length) sound.lengthSample - start →
        ((-32768 : K) ≤ (applyFilter sound wave waveOrig start length filter out).out.yl2
          ∧ (applyFilter sound wave waveOrig start length filter out).out.yl2 ≤ 32767)
        ∧ ((-32768 : K) ≤ (applyFilter sound wave waveOrig start length filter out).out.yr2
          ∧ (applyFilter sound wave waveOrig start length filter out).out.yr2 ≤ 32767)) := by
  refine ⟨?_, ?_, ?_, ?_⟩
  · intro i hs hi
    obtain ⟨j, rfl⟩ : ∃ j, i = start + j := ⟨i - start, by omega⟩
    unfold applyFilter
    rw [loop_get_inside _ _ _ _ _ (by omega) (by simp only; omega)]
    exact ⟨filteredSampleLeft_mem _ _ _ _, filteredSampleRight_mem _ _ _ _⟩
  · intro hn
    obtain ⟨n, hn⟩ : ∃ n, min (start + length) sound.lengthSample - start = n + 1 :=
      ⟨min (start + length) sound.lengthSample - start - 1, by omega⟩
    unfold applyFilter
    rw [hn]
    have h := loop_out_first filter n start ⟨wave, waveOrig, out⟩
    exact ⟨h.1, h.2.1⟩
  · intro hn
    unfold applyFilter
    rw [hn]
    have h := loop_out_first filter 0 start ⟨wave, waveOrig, out⟩
    exact ⟨h.2.2.1, h.2.2.2⟩
  · intro hn
    obtain ⟨n, hn⟩ : ∃ n, min (start + length) sound.lengthSample - start = n + 1 + 1 :=
      ⟨min (start + length) sound.lengthSample - start - 2, by omega⟩
    unfold applyFilter
    rw [hn]
    have h := loop_out_first filter (n + 1) start ⟨wave, waveOrig, out⟩
    have h2 := loop_out_first filter n start ⟨wave, waveOrig, out⟩
    rw [h.2.2.1, h.2.2.2]
    exact ⟨h2.1, h2.2.1⟩

/-- Witness of C3 on the three samples of `exWave`. -/
theorem applyFilter_range_witness :
    exWave.lengthSample = (Sound.new exWave).lengthSample
    ∧ (-32768 ≤ ((applyFilter (Sound.new exWave) exWave exWave 0 BufLen exFilterQ
          {}).wave.get 0).left
      ∧ ((applyFilter (Sound.new exWave) exWave exWave 0 BufLen exFilterQ
          {}).wave.get 0).left ≤ 32767) :=
  ⟨rfl, ((applyFilter_range (Sound.new exWave) exWave exWave 0 BufLen exFilterQ {} rfl).1 0
    (by decide) (by decide)).1⟩

/-- Counterexample to C3 as stated: one step from a memory whose `yl1` is 40000
leaves 40000 in `yl2`, outside `[-32768, 32767]`. -/
theorem applyFilter_range_stale :
    (applyFilter (Sound.new exWave) exWave exWave 0 1 exFilterQ
        { yl1 := 40000, yl2 := 0, yr1 := 0, yr2 := 0 }).out.yl2 = 40000
    ∧ ¬ ((applyFilter (Sound.new exWave) exWave exWave 0 1 exFilterQ
        { yl1 := 40000, yl2 := 0, yr1 := 0, yr2 := 0 }).out.yl2 ≤ 32767) := by
  have h : (applyFilter (Sound.new exWave) exWave exWave 0 1 exFilterQ
      { yl1 := 40000, yl2 := 0, yr1 := 0, yr2 := 0 }).out.yl2 = 40000 := rfl
  rw [h]
  exact ⟨rfl, by norm_num⟩

/-- C6: two runs of `applyFilter` that differ only in the initial output buffer
write the same samples on the processed range and leave the same filter memory;
a run changes no sample outside the range, keeps the length of the buffer and
leaves the original wave as it was. -/
theorem applyFilter_frame (sound : Sound) (waveOrig : Wave) (start length : Nat)
    (filter : Filter K) (out : OutputBuffer K) (wave1 wave2 : Wave)
    (h1 : wave1.lengthSample = sound.lengthSample)
    (h2 : wave2.lengthSample = sound.lengthSample) :
    (∀ i, start ≤ i → i < min (start + length) sound.lengthSample →
        (applyFilter sound wave1 waveOrig start length filter out).wave.get i
          = (applyFilter sound wave2 waveOrig start length filter out).wave.get i)
    ∧ (applyFilter sound wave1 waveOrig start length filter out).out
        = (applyFilter sound wave2 waveOrig start length filter out).out
    ∧ (∀ i, (i < start ∨ min (start + length) sound.lengthSample ≤ i) →
        (applyFilter sound wave1 waveOrig start length filter out).wave.get i = wave1.get i)
    ∧ (applyFilter sound wave1 waveOrig start length filter out).wave.lengthSample
        = wave1.lengthSample
    ∧ (applyFilter sound wave1 waveOrig start length filter out).waveOrig = waveOrig := by
  refine ⟨?_, ?_, ?_, ?_, ?_⟩
  · intro i hs hi
    obtain ⟨j, rfl⟩ : ∃ j, i = start + j := ⟨i - start, by omega⟩
    unfold applyFilter
    rw [loop_get_inside _ _ _ _ _ (by omega) (by simp only; omega),
      loop_get_inside _ _ _ _ _ (by omega) (by simp only; omega)]
    simp only
    rw [loop_out_congr filter j start ⟨wave1, waveOrig, out⟩ ⟨wave2, waveOrig, out⟩ rfl rfl]
  · unfold applyFilter
    exact loop_out_congr _ _ _ _ _ rfl rfl
  · intro i hi
    unfold applyFilter
    rw [loop_get_outside _ _ _ _ _ (by omega)]
  · unfold applyFilter
    rw [loop_lengthSample]
  · exact applyFilter_waveOrig _ _ _ _ _ _ _

/-- Witness of C6: `exWave` filtered into itself and into `exFiltered`. -/
theorem applyFilter_frame_witness :
    exWave.lengthSample = (Sound.new exWave).lengthSample
    ∧ exFiltered.lengthSample = (Sound.new exWave).lengthSample
    ∧ (applyFilter (Sound.new exWave) exWave exWave 0 BufLen exFilterQ {}).out
        = (applyFilter (Sound.new exWave) exFiltered exWave 0 BufLen exFilterQ {}).out :=
  ⟨rfl, rfl, (applyFilter_frame (Sound.new exWave) exWave 0 BufLen exFilterQ {} exWave
    exFiltered rfl rfl).2.1⟩

/-- C8: for `B > 0`, `FilteredBlock(N, B)` holds `ceil(N / B)` flags, which is the
least number `k` with `N ≤ k * B`, and every flag is false. -/
theorem FilteredBlock_new_count (N B : Nat) (hB : 0 < B) :
    (FilteredBlock.new N B).block.length = ⌈(N : ℚ) / (B : ℚ)⌉₊
    ∧ N ≤ (FilteredBlock.new N B).block.length * B
    ∧ (∀ k, N ≤ k * B → (FilteredBlock.new N B).block.length ≤ k)
    ∧ (∀ i, i < (FilteredBlock.new N B).block.length → (FilteredBlock.new N B).block[i]? = some false)
    ∧ (∀ i, (FilteredBlock.new N B).get i = false) := by
  rw [FilteredBlock.length_new]
  refine ⟨blockCount_eq_ceil N B hB, (blockCount_spec N B hB).1, (blockCount_spec N B hB).2,
    ?_, ?_⟩
  · intro i hi
    simp only [FilteredBlock.new, List.getElem?_replicate]
    rw [if_pos hi]
  · intro i
    simp only [FilteredBlock.get, FilteredBlock.new, List.getD_eq_getElem?_getD,
      List.getElem?_replicate]
    split_ifs <;> rfl

/-- Witness of C8: 12000 samples in blocks of 5000 give three flags, and sample
11999 lies in block 2. -/
theorem FilteredBlock_new_count_witness :
    (0 < 5000)
    ∧ ((FilteredBlock.new 12000 5000).block.length = ⌈((12000 : Nat) : ℚ) / ((5000 : Nat) : ℚ)⌉₊
      ∧ 12000 ≤ (FilteredBlock.new 12000 5000).block.length * 5000
      ∧ (∀ k, 12000 ≤ k * 5000 → (FilteredBlock.new 12000 5000).block.length ≤ k)
      ∧ (∀ i, i < (FilteredBlock.new 12000 5000).block.length →
          (FilteredBlock.new 12000 5000).block[i]? = some false)
      ∧ (∀ i, (FilteredBlock.new 12000 5000).get i = false))
    ∧ (FilteredBlock.new 12000 5000).block = [false, false, false]
    ∧ 11999 / 5000 = 2 :=
  ⟨by decide, FilteredBlock_new_count 12000 5000 (by decide), by decide, by decide⟩

/-- C7: after a click on the slider that seeks to `newpos = len * x / W < len`,
the flag of block `newpos / B` is set and every other flag is clear, whatever
the flags were before; this holds after the handler and at the end of a pass
with such a click and no dropped file. -/
theorem seek_one_valid (m : MathFns K) (B x W : Nat) (inp : Input) (e : Engine K)
    (hB : 0 < B) (hpos : e.len * x / W < e.len)
    (hsize : e.block.block.length = (FilteredBlock.new e.len B).block.length) :
    ((Main.seek m B x W e).block.get (e.len * x / W / B) = true
      ∧ ∀ j, j ≠ e.len * x / W / B → (Main.seek m B x W e).block.get j = false)
    ∧ (inp.sliderClick = some (x, W) → inp.dropped = none →
        (Main.tick m B inp e).block.get (e.len * x / W / B) = true
        ∧ ∀ j, j ≠ e.len * x / W / B → (Main.tick m B inp e).block.get j = false) := by
  have hidx : e.len * x / W / B < e.block.block.length := by
    rw [hsize, FilteredBlock.length_new]
    exact div_lt_blockCount _ _ _ hpos hB
  constructor
  · rw [seek_block_eq]
    constructor
    · exact FilteredBlock.flag_set_eq _ _ _ (by rw [FilteredBlock.length_reset]; exact hidx)
    · intro j hj
      rw [FilteredBlock.flag_set_ne _ _ _ _ (Ne.symm hj), FilteredBlock.get_reset]
  · intro hclick hdrop
    rw [tick_click m B inp e x W hclick hdrop, seek_block_eq, lookahead_len]
    constructor
    · exact FilteredBlock.flag_set_eq _ _ _
        (by rw [FilteredBlock.length_reset, lookahead_block_length]; exact hidx)
    · intro j hj
      rw [FilteredBlock.flag_set_ne _ _ _ _ (Ne.symm hj), FilteredBlock.get_reset]

/-- Witness of C7: with 12000 samples and blocks of 5000, a seek to sample 7000
leaves block 1 valid and blocks 0 and 2 invalid. -/
theorem seek_one_valid_witness :
    0 < BufLen
    ∧ exThreeEngine.len * 7 / 12 < exThreeEngine.len
    ∧ exThreeEngine.block.block.length = (FilteredBlock.new exThreeEngine.len BufLen).block.length
    ∧ exThreeEngine.len * 7 / 12 = 7000
    ∧ (Main.seek realFns BufLen 7 12 exThreeEngine).block.get 1 = true
    ∧ (Main.seek realFns BufLen 7 12 exThreeEngine).block.get 0 = false
    ∧ (Main.seek realFns BufLen 7 12 exThreeEngine).block.get 2 = false :=
  ⟨by decide, by decide, by decide, by decide,
    (seek_one_valid realFns BufLen 7 12 exClick exThreeEngine (by decide) (by decide)
      (by decide)).1.1,
    (seek_one_valid realFns BufLen 7 12 exClick exThreeEngine (by decide) (by decide)
      (by decide)).1.2 0 (by decide),
    (seek_one_valid realFns BufLen 7 12 exClick exThreeEngine (by decide) (by decide)
      (by decide)).1.2 2 (by decide)⟩

/-- C10, amended: for `len > 0` and `B > 0` the index `idx = ((pos + B) mod len) / B`
is below the number of flags of `FilteredBlock(len, B)`; the flag of `idx` is set
after the look-ahead step of every pass, hence at the end of every pass without
a click on the slider and without a dropped file.  In such a pass, when no
adjustment key was released, the block was filtered from the held memory if its
flag was clear, and the buffer and the memory are untouched if it was set. -/
theorem lookahead_in_bounds (m : MathFns K) (B : Nat) (inp : Input) (e : Engine K)
    (hlen : 0 < e.len) (hB : 0 < B)
    (hsize : e.block.block.length = (FilteredBlock.new e.len B).block.length) :
    Main.idxBlock B inp.pos e.len < (FilteredBlock.new e.len B).block.length
    ∧ (Main.lookahead m B inp { e with filter := Main.adjust inp e.filter }).block.get
        (Main.idxBlock B inp.pos e.len) = true
    ∧ (inp.sliderClick = none → inp.dropped = none →
        (Main.tick m B inp e).block.get (Main.idxBlock B inp.pos e.len) = true
        ∧ (inp.released = false → e.block.get (Main.idxBlock B inp.pos e.len) = false →
            (Main.tick m B inp e).wave
              = (applyFilter e.sound e.wave e.waveOrig (Main.idxBlock B inp.pos e.len * B) B
                  (Main.tick m B inp e).filter e.out).wave
            ∧ (Main.tick m B inp e).out
              = (applyFilter e.sound e.wave e.waveOrig (Main.idxBlock B inp.pos e.len * B) B
                  (Main.tick m B inp e).filter e.out).out)
        ∧ (inp.released = false → e.block.get (Main.idxBlock B inp.pos e.len) = true →
            (Main.tick m B inp e).wave = e.wave ∧ (Main.tick m B inp e).out = e.out)) := by
  have hidx : Main.idxBlock B inp.pos e.len < (FilteredBlock.new e.len B).block.length := by
    rw [FilteredBlock.length_new]
    exact idxBlock_lt_aux _ _ _ hlen hB
  have hidx2 : Main.idxBlock B inp.pos e.len < e.block.block.length := by rw [hsize]; exact hidx
  refine ⟨hidx, ?_, ?_⟩
  · exact lookahead_get_idx m B inp { e with filter := Main.adjust inp e.filter } hidx2
  · intro hclick hdrop
    rw [tick_no_event m B inp e hclick hdrop]
    refine ⟨lookahead_get_idx m B inp { e with filter := Main.adjust inp e.filter } hidx2, ?_, ?_⟩
    · intro hrel hinv
      exact lookahead_invalid m B inp { e with filter := Main.adjust inp e.filter } hrel hinv
    · intro hrel hval
      exact lookahead_valid_kept m B inp { e with filter := Main.adjust inp e.filter } hrel hval

/-- Witness of C10: an idle pass over `exWave` with the flag of block 0 clear. -/
theorem lookahead_in_bounds_witness :
    0 < (exEngine false).len
    ∧ 0 < BufLen
    ∧ (exEngine false).block.block.length
        = (FilteredBlock.new (exEngine false).len BufLen).block.length
    ∧ Main.idxBlock BufLen exIdle.pos (exEngine false).len
        < (FilteredBlock.new (exEngine false).len BufLen).block.length
    ∧ (Main.tick realFns BufLen exIdle (exEngine false)).block.get
        (Main.idxBlock BufLen exIdle.pos (exEngine false).len) = true :=
  ⟨by decide, by decide, by decide,
    (lookahead_in_bounds realFns BufLen exIdle (exEngine false) (by decide) (by decide)
      (by decide)).1,
    ((lookahead_in_bounds realFns BufLen exIdle (exEngine false) (by decide) (by decide)
      (by decide)).2.2 rfl rfl).1⟩

/-- Counterexample to C10 as stated.  A pass with a click on the slider ends with
the flag of the look-ahead block clear: with 5001 samples the look-ahead block at
position 0 is block 1, and a seek to sample 0 leaves only block 0 valid.  And a
pass in which a key is released sets the flag of a look-ahead block whose flag
was clear without filtering it: the buffer still holds `exWave`, which is not
what the filter gives from any memory. -/
theorem lookahead_flag_lost_or_unfiltered :
    (Main.idxBlock BufLen exClick.pos exLongEngine.len = 1
      ∧ (Main.tick realFns BufLen exClick exLongEngine).block.get 1 = false)
    ∧ (Main.idxBlock BufLen exRelease.pos (exEngine false).len = 0
      ∧ (exEngine false).block.get 0 = false
      ∧ (Main.tick realFns BufLen exRelease (exEngine false)).block.get 0 = true
      ∧ ¬ ∃ (c : OutputBuffer ℝ) (w : Wave), w.lengthSample = 3 ∧
          ∀ i, i < 3 →
            (Main.tick realFns BufLen exRelease (exEngine false)).wave.get i
              = (applyFilter (exEngine false).sound w (exEngine false).waveOrig (0 * BufLen) BufLen
                  (Main.tick realFns BufLen exRelease (exEngine false)).filter c).wave.get i) := by
  refine ⟨⟨by decide, ?_⟩, ⟨by decide, rfl, ?_, ?_⟩⟩
  · rw [tick_click realFns BufLen exClick exLongEngine 0 640 rfl rfl, seek_block_eq,
      FilteredBlock.flag_set_ne _ _ _ _ (by rw [lookahead_len]; decide), FilteredBlock.get_reset]
  · rw [tick_exRelease]; rfl
  · rw [tick_exRelease]
    rintro ⟨c, w, hw, h⟩
    exact exWave_not_filtered c w hw h

/-- C4, amended: in a pass in which an adjustment key is released (and the
slider is not clicked, no file dropped), every flag is cleared and the flag of
the look-ahead block `idx` is set without the block being filtered: after the
pass the flag of `idx` is set, every other flag is clear, and the output buffer,
the filter memory and the original wave are as before the pass. -/
theorem release_marks_without_filtering (m : MathFns K) (B : Nat) (inp : Input) (e : Engine K)
    (hlen : 0 < e.len) (hB : 0 < B)
    (hsize : e.block.block.length = (FilteredBlock.new e.len B).block.length)
    (hrel : inp.released = true) (hclick : inp.sliderClick = none) (hdrop : inp.dropped = none) :
    (Main.tick m B inp e).block.get (Main.idxBlock B inp.pos e.len) = true
    ∧ (∀ j, j ≠ Main.idxBlock B inp.pos e.len → (Main.tick m B inp e).block.get j = false)
    ∧ (Main.tick m B inp e).wave = e.wave
    ∧ (Main.tick m B inp e).out = e.out
    ∧ (Main.tick m B inp e).waveOrig = e.waveOrig := by
  have hidx : Main.idxBlock B inp.pos e.len < e.block.block.length := by
    rw [hsize, FilteredBlock.length_new]
    exact idxBlock_lt_aux _ _ _ hlen hB
  rw [tick_no_event m B inp e hclick hdrop,
    lookahead_released m B inp { e with filter := Main.adjust inp e.filter } hidx hrel]
  refine ⟨?_, ?_, rfl, rfl, rfl⟩
  · exact FilteredBlock.flag_set_eq _ _ _ (by rw [FilteredBlock.length_reset]; exact hidx)
  · intro j hj
    simp only
    rw [FilteredBlock.flag_set_ne _ _ _ _ (Ne.symm hj), FilteredBlock.get_reset]

/-- Witness of C4: a key released after Q was lowered, see `exAdjusted`. -/
theorem release_marks_without_filtering_witness :
    0 < exAdjusted.len
    ∧ 0 < BufLen
    ∧ exAdjusted.block.block.length = (FilteredBlock.new exAdjusted.len BufLen).block.length
    ∧ exRelease.released = true
    ∧ exRelease.sliderClick = none
    ∧ exRelease.dropped = none
    ∧ (Main.tick realFns BufLen exRelease exAdjusted).wave = exAdjusted.wave
    ∧ (Main.tick realFns BufLen exRelease exAdjusted).out = exAdjusted.out :=
  ⟨by decide, by decide, by decide, rfl, rfl, rfl,
    (release_marks_without_filtering realFns BufLen exRelease exAdjusted (by decide)
      (by decide) (by decide) rfl rfl rfl).2.2.1,
    (release_marks_without_filtering realFns BufLen exRelease exAdjusted (by decide)
      (by decide) (by decide) rfl rfl rfl).2.2.2.1⟩

/-- Counterexample to C4 as stated: the buffer holds `exWave` filtered with Q = 1,
Q has been lowered to 0.5, and the key is released.  After the pass the flag of
the look-ahead block 0 is set, but the buffer over the block still holds the
samples of Q = 1: it is not what the filter with the current coefficients gives
on the original wave, from whatever memory and into whatever buffer. -/
theorem release_block_not_filtered :
    exRelease.released = true
    ∧ Main.idxBlock BufLen exRelease.pos exAdjusted.len = 0
    ∧ (Main.tick realFns BufLen exRelease exAdjusted).block.get 0 = true
    ∧ ¬ ∃ (c : OutputBuffer ℝ) (w : Wave), w.lengthSample = 3 ∧
        ∀ i, i < 3 →
          (Main.tick realFns BufLen exRelease exAdjusted).wave.get i
            = (applyFilter (Main.tick realFns BufLen exRelease exAdjusted).sound w
                (Main.tick realFns BufLen exRelease exAdjusted).waveOrig (0 * BufLen) BufLen
                (Main.tick realFns BufLen exRelease exAdjusted).filter c).wave.get i := by
  refine ⟨rfl, by decide, ?_, ?_⟩
  · rw [tick_exRelease_adjusted]; rfl
  · rw [tick_exRelease_adjusted]
    rintro ⟨c, w, hw, h⟩
    exact exFiltered_not_half c w hw h

/-- C5, amended: a seek and a reload do not reset the filter memory: the block
they fill is the result of `applyFilter` with the recomputed coefficients from
the memory held before the event, so its first sample is what
`filteredSampleLeft` (`filteredSampleRight`) computes from the `yl1`, `yl2`
(`yr1`, `yr2`) held before the event. -/
theorem seek_and_reload_keep_memory (m : MathFns K) (B x W : Nat) (file : Wave)
    (e : Engine K) (hB : 0 < B) :
    ((Main.seek m B x W e).wave
        = (applyFilter e.sound e.wave e.waveOrig (e.len * x / W / B * B) B
            (e.filter.calc m) e.out).wave
      ∧ (Main.seek m B x W e).out
        = (applyFilter e.sound e.wave e.waveOrig (e.len * x / W / B * B) B
            (e.filter.calc m) e.out).out
      ∧ (e.wave.lengthSample = e.sound.lengthSample →
          e.len * x / W / B * B < e.sound.lengthSample →
          ((Main.seek m B x W e).wave.get (e.len * x / W / B * B)).left
            = filteredSample (e.filter.calc m) (fun j => (e.waveOrig.get j).left)
                (e.len * x / W / B * B) e.out.yl1 e.out.yl2
          ∧ ((Main.seek m B x W e).wave.get (e.len * x / W / B * B)).right
            = filteredSample (e.filter.calc m) (fun j => (e.waveOrig.get j).right)
                (e.len * x / W / B * B) e.out.yr1 e.out.yr2))
    ∧ ((Main.reload m B file e).wave
        = (applyFilter (Sound.new file) file file 0 B (e.filter.calc m) e.out).wave
      ∧ (Main.reload m B file e).out
        = (applyFilter (Sound.new file) file file 0 B (e.filter.calc m) e.out).out
      ∧ (0 < file.lengthSample →
          ((Main.reload m B file e).wave.get 0).left
            = filteredSample (e.filter.calc m) (fun j => (file.get j).left) 0 e.out.yl1 e.out.yl2
          ∧ ((Main.reload m B file e).wave.get 0).right
            = filteredSample (e.filter.calc m) (fun j => (file.get j).right) 0
                e.out.yr1 e.out.yr2)) := by
  refine ⟨⟨rfl, rfl, ?_⟩, ⟨rfl, rfl, ?_⟩⟩
  · intro hl hs
    exact applyFilter_get_first e.sound e.wave e.waveOrig _ B (e.filter.calc m) e.out hl hs hB
  · intro hl
    exact applyFilter_get_first (Sound.new file) file file 0 B (e.filter.calc m) e.out rfl hl hB

/-- Witness of C5: a seek on `exSeekEngine`. -/
theorem seek_and_reload_keep_memory_witness :
    0 < BufLen
    ∧ (Main.seek realFns BufLen 0 640 exSeekEngine).out
        = (applyFilter exSeekEngine.sound exSeekEngine.wave exSeekEngine.waveOrig
            (exSeekEngine.len * 0 / 640 / BufLen * BufLen) BufLen
            (exSeekEngine.filter.calc realFns) exSeekEngine.out).out :=
  ⟨by decide, (seek_and_reload_keep_memory realFns BufLen 0 640 exWave exSeekEngine
    (by decide)).1.2.1⟩

/-- Counterexample to C5 as stated: with the memory `(367, 334)` held before the
event, a seek to sample 0 and a reload of `exWave` write -10 as the first left
sample, where the filter from a zeroed memory writes 100. -/
theorem seek_and_reload_use_stale_memory :
    (((Main.seek realFns BufLen 0 640 exSeekEngine).wave.get 0).left = -10
      ∧ ((applyFilter exSeekEngine.sound exSeekEngine.wave exSeekEngine.waveOrig 0 BufLen
            (exSeekEngine.filter.calc realFns) {}).wave.get 0).left = 100)
    ∧ (((Main.reload realFns BufLen exWave exSeekEngine).wave.get 0).left = -10
      ∧ ((applyFilter (Sound.new exWave) exWave exWave 0 BufLen
            (exSeekEngine.filter.calc realFns) {}).wave.get 0).left = 100) := by
  have hstale := (filteredSample_exFilter_first 367 334 (-32 / 3) (-10) (by norm_num)
    (by norm_num) (Or.inr (by norm_num))).1
  have hfresh := (filteredSample_exFilter_first 0 0 (302 / 3) 100 (by norm_num)
    (by norm_num) (Or.inl (by norm_num))).1
  have h1 := (applyFilter_get_first exSeekEngine.sound exSeekEngine.wave exSeekEngine.waveOrig
    0 BufLen (exSeekEngine.filter.calc realFns) exSeekEngine.out rfl (by decide) (by decide)).1
  have h2 := (applyFilter_get_first exSeekEngine.sound exSeekEngine.wave exSeekEngine.waveOrig
    0 BufLen (exSeekEngine.filter.calc realFns) {} rfl (by decide) (by decide)).1
  have h3 := (applyFilter_get_first (Sound.new exWave) exWave exWave
    0 BufLen (exSeekEngine.filter.calc realFns) exSeekEngine.out rfl (by decide) (by decide)).1
  have h4 := (applyFilter_get_first (Sound.new exWave) exWave exWave
    0 BufLen (exSeekEngine.filter.calc realFns) {} rfl (by decide) (by decide)).1
  refine ⟨⟨?_, ?_⟩, ⟨?_, ?_⟩⟩
  · exact h1.trans hstale
  · exact h2.trans hfresh
  · exact h3.trans hstale
  · exact h4.trans hfresh

end Claims

/-! ### The divisor `a0` -/

end RealtimeFilter
